import Mathlib

/-!
Verification of the sthereo dataset module (hard-negative mining for
NetVLAD-style training).

The development shallowly embeds the algorithmic content of `sthereo.py`:

* `JsonHandler.serialize` / `JsonHandler.deserialize` — manifest (de)serialization,
  modelled over a small JSON-value type `JVal` (numbers as `ℚ`);
* the candidate-set builder in `QueryDatasetFromJson.__init__`
  (radius queries, `np.setdiff1d`, active-query filtering);
* the per-query hard-negative mining step in `QueryDatasetFromJson.__getitem__`
  (margin-violation filter, truncation, negative-cache commit), with the
  embedding-space distances idealized as real numbers and the kNN ranking
  passed in as an explicit distance-sorted list;
* `WholeDatasetFromJson.getPositives` — memoized whole-dataset positive
  resolution, instrumented with a search counter to express "computed once".

Spatial coordinates are `ℚ × ℚ`.  A Euclidean radius query `dist ≤ r`
(for `r ≥ 0`) is encoded squared-distance-wise as `sqDist ≤ r^2`, which keeps
every candidate-set definition executable; the mining threshold
`dPos + margin ** 0.5`, which genuinely needs a square root, is kept in `ℝ`.
-/

namespace Sthereo

/-! ### Spatial primitives (sklearn `NearestNeighbors.radius_neighbors`) -/

/-- A 2-D spatial coordinate (a row of `utmDb` / `utmQ`). -/
abbrev Point := ℚ × ℚ

/-- Squared Euclidean distance between two coordinates. -/
def sqDist (a b : Point) : ℚ :=
  (a.1 - b.1) ^ 2 + (a.2 - b.2) ^ 2

/-- `radius_neighbors` of the spatial index fitted on `points`, queried at `c`.
For a nonnegative radius `r`, Euclidean `dist ≤ r` is equivalent to
`sqDist ≤ r^2`, so the radius is passed squared (`rSq = r^2`).  Returns the
indices (into `points`) of all points within the radius, in index order. -/
def radiusNeighborsSq (points : List Point) (c : Point) (rSq : ℚ) : List ℕ :=
  (List.range points.length).filter (fun i => decide (sqDist c (points.getD i (0, 0)) ≤ rSq))

/-! ### Candidate Set Builder (`QueryDatasetFromJson.__init__`, lines 170-196) -/

/-- `np.setdiff1d(a, b, assume_unique=True)`: the elements of `a` not in `b`,
in `a`'s order (for `a = np.arange(n)` the result is sorted ascending). -/
def setdiff1d (a b : List ℕ) : List ℕ :=
  a.filter (fun x => decide (x ∉ b))

/-- `self.potential_negatives` (lines 185-192): for each query coordinate,
`np.setdiff1d(np.arange(numDb), pos, assume_unique=True)` where `pos` is the
radius query at `posDistThr` (passed here as its square `posThrSq`). -/
def potential_negatives (utmDb utmQ : List Point) (numDb : ℕ) (posThrSq : ℚ) :
    List (List ℕ) :=
  utmQ.map (fun qc => setdiff1d (List.range numDb) (radiusNeighborsSq utmDb qc posThrSq))

/-- `self.nontrivial_positives` (lines 174-179): radius query at
`nonTrivPosDistSqThr ** 0.5` (so the squared radius is `nonTrivPosDistSqThr`
itself), each result array sorted ascending with `np.sort`. -/
def nontrivial_positives (utmDb utmQ : List Point) (ntSqThr : ℚ) : List (List ℕ) :=
  utmQ.map (fun qc => (radiusNeighborsSq utmDb qc ntSqThr).insertionSort (· ≤ ·))

/-- `self.queries` (line 182): `np.where([len(x) for x in nontrivial_positives] > 0)[0]`,
the (ascending) indices of queries with at least one nontrivial positive. -/
def queries (utmDb utmQ : List Point) (ntSqThr : ℚ) : List ℕ :=
  (List.range utmQ.length).filter
    (fun i => decide (0 < ((nontrivial_positives utmDb utmQ ntSqThr).getD i []).length))

/-! ### Hard Negative Miner core (`QueryDatasetFromJson.__getitem__`, lines 213-255)

The embedding-space kNN ranking over the candidate pool is passed in as
`ranked : List (α × ℕ)`: `(distance, position into negSample)` pairs, returned
by `kneighbors` sorted ascending by distance.  The margin-violation threshold
`dPos + margin ** 0.5` is computed in `ℝ` by `violatingThreshold`; the list
manipulation below is polymorphic over a linear order so it stays executable. -/

/-- The miner's violation threshold (line 226): `dPos + self.margin ** 0.5`. -/
noncomputable def violatingThreshold (dPos margin : ℝ) : ℝ :=
  dPos + Real.sqrt margin

/-- Line 226, `violatingNeg = dNeg < dPos + self.margin**0.5`, applied as the
boolean mask to the ranked candidates: the candidates strictly below the
threshold, in ranked (ascending-distance) order. -/
def violatingNegs {α : Type} [LinearOrder α] (ranked : List (α × ℕ)) (t : α) :
    List (α × ℕ) :=
  ranked.filter (fun p => decide (p.1 < t))

/-- Line 232, `negNN = negNN[violatingNeg][:self.nNeg]`: the violating
candidates truncated to the first `nNeg`. -/
def selectNegatives {α : Type} [LinearOrder α] (ranked : List (α × ℕ)) (t : α)
    (nNeg : ℕ) : List (α × ℕ) :=
  (violatingNegs ranked t).take nNeg

/-- Line 233, `negIndices = negSample[negNN].astype(np.int32)`: map the selected
kNN positions back to database indices through the candidate pool. -/
def negIndicesOf {α : Type} [LinearOrder α] (negSample : List ℕ)
    (ranked : List (α × ℕ)) (t : α) (nNeg : ℕ) : List ℕ :=
  ((selectNegatives ranked t nNeg).map Prod.snd).map (fun i => negSample.getD i 0)

/-- Lines 226-255 of `__getitem__`, from the violation mask onward.  `q` is the
remapped real query index (line 199), `posIndex` the best-positive database
index (line 211), `negCache` the per-query Negative Cache (line 196).  Images
are represented by their indices, so the success tuple
`(query, positive, negatives, [index, posIndex] + negIndices)` becomes
`(q, posIndex, negIndices, [q, posIndex] ++ negIndices)`.  Returns the result
together with the updated cache. -/
def mineStep {α : Type} [LinearOrder α] (negSample : List ℕ)
    (ranked : List (α × ℕ)) (t : α) (nNeg q posIndex : ℕ)
    (negCache : List (List ℕ)) :
    Option (ℕ × ℕ × List ℕ × List ℕ) × List (List ℕ) :=
  if (violatingNegs ranked t).length < 1 then
    (none, negCache)
  else
    let negIndices := negIndicesOf negSample ranked t nNeg
    (some (q, posIndex, negIndices, [q, posIndex] ++ negIndices),
      negCache.set q negIndices)

/-- `np.unique` (line 214): sorted ascending, duplicates removed. -/
def npUnique (l : List ℕ) : List ℕ :=
  l.dedup.insertionSort (· ≤ ·)

/-- `kneighbors(qFeat, k)` of the index fitted on `dists.length` candidate
features (lines 218-221): the `k` nearest candidates as `(distance, position)`
pairs sorted ascending by distance.  sklearn raises
`ValueError: Expected n_neighbors <= n_samples_fit` when `k` exceeds the
number of fitted samples, modelled as `Except.error`. -/
def kneighbors {α : Type} [LinearOrder α] (dists : List α) (k : ℕ) :
    Except String (List (α × ℕ)) :=
  if k ≤ dists.length then
    .ok (((dists.enum.map (fun p => (p.2, p.1))).insertionSort
      (fun a b => a.1 ≤ b.1)).take k)
  else
    .error "Expected n_neighbors <= n_samples_fit"

/-- Lines 213-255 from candidate-pool construction onward: deduplicate the
union of the previous cache entry and the drawn sample (line 214), rank the
pool against the query embedding with `k = nNeg * 10` (lines 220-221, where
`dist i` is the embedding distance from the query feature to database image
`i`), then run `mineStep`. -/
def mineCall {α : Type} [LinearOrder α] (dist : ℕ → α)
    (cacheEntry sample : List ℕ) (t : α) (nNeg q posIndex : ℕ)
    (negCache : List (List ℕ)) :
    Except String (Option (ℕ × ℕ × List ℕ × List ℕ) × List (List ℕ)) :=
  let negSample := npUnique (cacheEntry ++ sample)
  match kneighbors (negSample.map dist) (nNeg * 10) with
  | .error e => .error e
  | .ok ranked => .ok (mineStep negSample ranked t nNeg q posIndex negCache)

end Sthereo

namespace Sthereo

/-! ### Claims about the miner core -/

/-- Claim C1: in a mining call, a ranked candidate at raw kNN distance `d` is
selected as a violating negative iff `d < dPos + margin ** 0.5`; the selected
negatives are the violating ones kept in ascending-distance order (ranked
order), truncated to the first `nNeg`. -/
theorem claim_C1 (ranked : List (ℝ × ℕ)) (dPos margin : ℝ) (nNeg : ℕ) :
    (∀ p, p ∈ violatingNegs ranked (violatingThreshold dPos margin) ↔
      p ∈ ranked ∧ p.1 < dPos + Real.sqrt margin)
    ∧ selectNegatives ranked (violatingThreshold dPos margin) nNeg =
        (violatingNegs ranked (violatingThreshold dPos margin)).take nNeg
    ∧ (selectNegatives ranked (violatingThreshold dPos margin) nNeg).length ≤ nNeg
    ∧ (ranked.Pairwise (fun a b => a.1 ≤ b.1) →
        (selectNegatives ranked (violatingThreshold dPos margin) nNeg).Pairwise
          (fun a b => a.1 ≤ b.1)) := by
  refine ⟨fun p => ?_, rfl, ?_, fun hs => ?_⟩
  · simp [violatingNegs, violatingThreshold]
  · exact (List.length_take _ _).le.trans (min_le_left _ _)
  · refine hs.sublist ?_
    exact (List.take_sublist _ _).trans (List.filter_sublist _)

/-- Witness for C1 at a concrete input. -/
theorem claim_C1_witness :
    ((0 : ℝ), (0 : ℕ)) ∈ violatingNegs [((0 : ℝ), (0 : ℕ))] (violatingThreshold 1 0)
    ∧ (selectNegatives [((0 : ℝ), (0 : ℕ))] (violatingThreshold 1 0) 5).Pairwise
        (fun a b => a.1 ≤ b.1) := by
  have h := claim_C1 [((0 : ℝ), (0 : ℕ))] 1 0 5
  refine ⟨(h.1 _).mpr ⟨by simp, by simp [Real.sqrt_zero]⟩, h.2.2.2 (by simp)⟩

/-- Claim C2: when zero ranked candidates pass the margin-violation test, the
mining step returns `None` (no exception) and the Negative Cache is returned
unchanged. -/
theorem claim_C2 (negSample : List ℕ) (ranked : List (ℝ × ℕ))
    (dPos margin : ℝ) (nNeg q posIndex : ℕ) (negCache : List (List ℕ))
    (h : violatingNegs ranked (violatingThreshold dPos margin) = []) :
    mineStep negSample ranked (violatingThreshold dPos margin) nNeg q posIndex negCache =
      (none, negCache) := by
  simp [mineStep, h]

/-- Witness for C2 at a concrete input. -/
theorem claim_C2_witness :
    violatingNegs ([] : List (ℝ × ℕ)) (violatingThreshold 0 0) = []
    ∧ mineStep [] ([] : List (ℝ × ℕ)) (violatingThreshold 0 0) 10 0 0 [[]] =
        (none, [[]]) :=
  ⟨rfl, claim_C2 [] [] 0 0 10 0 0 [[]] rfl⟩

/-- Claim C3: when at least one candidate violates, the mining step overwrites
the Negative Cache entry of the real query index `q` with exactly the newly
chosen negative indices (all other entries untouched) and returns the tuple
`(queryImage, positiveImage, orderedNegativeImages, [q, posIndex] ++ negIndices)`. -/
theorem claim_C3 (negSample : List ℕ) (ranked : List (ℝ × ℕ))
    (dPos margin : ℝ) (nNeg q posIndex : ℕ) (negCache : List (List ℕ))
    (h : violatingNegs ranked (violatingThreshold dPos margin) ≠ [])
    (hq : q < negCache.length) :
    mineStep negSample ranked (violatingThreshold dPos margin) nNeg q posIndex negCache =
      (some (q, posIndex,
          negIndicesOf negSample ranked (violatingThreshold dPos margin) nNeg,
          [q, posIndex] ++ negIndicesOf negSample ranked (violatingThreshold dPos margin) nNeg),
        negCache.set q (negIndicesOf negSample ranked (violatingThreshold dPos margin) nNeg))
    ∧ (negCache.set q (negIndicesOf negSample ranked (violatingThreshold dPos margin) nNeg)).getD q []
        = negIndicesOf negSample ranked (violatingThreshold dPos margin) nNeg
    ∧ ∀ q', q' ≠ q →
        (negCache.set q (negIndicesOf negSample ranked (violatingThreshold dPos margin) nNeg)).getD q' []
          = negCache.getD q' [] := by
  refine ⟨?_, ?_, fun q' hne => ?_⟩
  · have hlen : ¬ (violatingNegs ranked (violatingThreshold dPos margin)).length < 1 := by
      simpa [Nat.lt_one_iff, List.length_eq_zero] using h
    simp [mineStep, hlen]
  · simp [List.getD, List.getElem?_set_self' , hq]
  · simp [List.getD, List.getElem?_set_ne (Ne.symm hne)]

/-- Witness for C3 at a concrete input. -/
theorem claim_C3_witness :
    violatingNegs [((0 : ℝ), (0 : ℕ))] (violatingThreshold 1 0) ≠ []
    ∧ mineStep [5] [((0 : ℝ), (0 : ℕ))] (violatingThreshold 1 0) 10 0 0 [[]] =
        (some (0, 0, negIndicesOf [5] [((0 : ℝ), (0 : ℕ))] (violatingThreshold 1 0) 10,
            [0, 0] ++ negIndicesOf [5] [((0 : ℝ), (0 : ℕ))] (violatingThreshold 1 0) 10),
          [[]].set 0 (negIndicesOf [5] [((0 : ℝ), (0 : ℕ))] (violatingThreshold 1 0) 10)) := by
  have hv : violatingNegs [((0 : ℝ), (0 : ℕ))] (violatingThreshold 1 0) ≠ [] := by
    have : ((0 : ℝ), (0 : ℕ)) ∈ violatingNegs [((0 : ℝ), (0 : ℕ))] (violatingThreshold 1 0) := by
      simp [violatingNegs, violatingThreshold, Real.sqrt_zero]
    intro he
    rw [he] at this
    exact List.not_mem_nil _ this
  exact ⟨hv, (claim_C3 [5] [((0 : ℝ), (0 : ℕ))] 1 0 10 0 0 [[]] hv (by norm_num)).1⟩

/-- Claim C5: with the feature cache, candidate pool, negative-cache state and
random sample fixed (hence the same ranked candidate list and `dPos`),
increasing `margin` never decreases the number of candidates passing the
margin-violation test. -/
theorem claim_C5 (ranked : List (ℝ × ℕ)) (dPos m1 m2 : ℝ) (h : m1 ≤ m2) :
    (violatingNegs ranked (violatingThreshold dPos m1)).length ≤
      (violatingNegs ranked (violatingThreshold dPos m2)).length := by
  have ht : violatingThreshold dPos m1 ≤ violatingThreshold dPos m2 :=
    add_le_add_left (Real.sqrt_le_sqrt h) dPos
  refine List.Sublist.length_le (List.monotone_filter_right ranked ?_)
  intro p hp
  have h1 : p.1 < violatingThreshold dPos m1 := of_decide_eq_true hp
  exact decide_eq_true (lt_of_lt_of_le h1 ht)

/-- Witness for C5 at a concrete input. -/
theorem claim_C5_witness :
    (0 : ℝ) ≤ 1
    ∧ (violatingNegs ([] : List (ℝ × ℕ)) (violatingThreshold 0 0)).length ≤
        (violatingNegs ([] : List (ℝ × ℕ)) (violatingThreshold 0 1)).length :=
  ⟨by norm_num, claim_C5 [] 0 0 1 (by norm_num)⟩

/-- Claim C6: the ranking kNN requests exactly `nNeg * 10` neighbors, so a
mining call raises (rather than returning a result or a skip) precisely when
the deduplicated candidate pool — the union of the sampled potential negatives
and the previous negative-cache entry — has fewer than `10 * nNeg` distinct
indices. -/
theorem claim_C6 {α : Type} [LinearOrder α] (dist : ℕ → α)
    (cacheEntry sample : List ℕ) (t : α) (nNeg q posIndex : ℕ)
    (negCache : List (List ℕ)) :
    (∃ e, mineCall dist cacheEntry sample t nNeg q posIndex negCache = .error e) ↔
      (npUnique (cacheEntry ++ sample)).length < nNeg * 10 := by
  unfold mineCall kneighbors
  by_cases hk : nNeg * 10 ≤ ((npUnique (cacheEntry ++ sample)).map dist).length
  · simp only [if_pos hk]
    simp only [List.length_map] at hk
    simp [not_lt.mpr hk]
  · simp only [if_neg hk]
    simp only [List.length_map] at hk
    simp [not_le.mp hk]

/-- Witness for C6 at a concrete input (empty pool, `nNeg = 1`). -/
theorem claim_C6_witness :
    ∃ e, mineCall (fun _ => (0 : ℚ)) [] [] 0 1 0 0 [] = .error e :=
  (claim_C6 (fun _ => (0 : ℚ)) [] [] 0 1 0 0 []).mpr (by decide)

/-! ### Claims about the Candidate Set Builder -/

/-- Claim C4: after construction, `potential_negatives[q]` is exactly the
complement within `[0, numDb)` of the positive-threshold neighborhood of `q`
(membership characterized by squared distance `≤ posDistThr^2`), is sorted and
duplicate-free, is disjoint from that neighborhood, and together with it
covers `[0, numDb)`. -/
theorem claim_C4 (utmDb utmQ : List Point) (numDb : ℕ) (posThrSq : ℚ) (q : ℕ)
    (hlen : utmDb.length = numDb) (hq : q < utmQ.length) :
    (∀ i, i ∈ (potential_negatives utmDb utmQ numDb posThrSq).getD q [] ↔
        i < numDb ∧ i ∉ radiusNeighborsSq utmDb (utmQ.getD q (0, 0)) posThrSq)
    ∧ (∀ i, i ∈ radiusNeighborsSq utmDb (utmQ.getD q (0, 0)) posThrSq ↔
        i < numDb ∧ sqDist (utmQ.getD q (0, 0)) (utmDb.getD i (0, 0)) ≤ posThrSq)
    ∧ ((potential_negatives utmDb utmQ numDb posThrSq).getD q []).Sorted (· < ·)
    ∧ (∀ i, ¬ (i ∈ (potential_negatives utmDb utmQ numDb posThrSq).getD q []
        ∧ i ∈ radiusNeighborsSq utmDb (utmQ.getD q (0, 0)) posThrSq))
    ∧ (∀ i, i < numDb →
        i ∈ (potential_negatives utmDb utmQ numDb posThrSq).getD q []
        ∨ i ∈ radiusNeighborsSq utmDb (utmQ.getD q (0, 0)) posThrSq) := by
  have hentry : (potential_negatives utmDb utmQ numDb posThrSq).getD q [] =
      setdiff1d (List.range numDb) (radiusNeighborsSq utmDb (utmQ.getD q (0, 0)) posThrSq) := by
    have hql : q < (utmQ.map (fun qc =>
        setdiff1d (List.range numDb) (radiusNeighborsSq utmDb qc posThrSq))).length := by
      simpa using hq
    rw [potential_negatives, List.getD_eq_getElem _ _ hql, List.getD_eq_getElem _ _ hq]
    simp
  have hmem : ∀ i, i ∈ (potential_negatives utmDb utmQ numDb posThrSq).getD q [] ↔
      i < numDb ∧ i ∉ radiusNeighborsSq utmDb (utmQ.getD q (0, 0)) posThrSq := by
    intro i
    rw [hentry]
    simp [setdiff1d, List.mem_filter, List.mem_range]
  refine ⟨hmem, fun i => ?_, ?_, fun i hi => ?_, fun i hi => ?_⟩
  · simp [radiusNeighborsSq, List.mem_filter, List.mem_range, hlen]
  · rw [hentry]
    exact ((List.pairwise_lt_range numDb).sublist (List.filter_sublist _))
  · rcases hi with ⟨hneg, hpos⟩
    exact ((hmem i).mp hneg).2 hpos
  · by_cases hp : i ∈ radiusNeighborsSq utmDb (utmQ.getD q (0, 0)) posThrSq
    · exact Or.inr hp
    · exact Or.inl ((hmem i).mpr ⟨hi, hp⟩)

/-- Witness for C4 at a concrete input. -/
theorem claim_C4_witness :
    ([((0 : ℚ), (0 : ℚ))].length = 1 ∧ 0 < [((3 : ℚ), (4 : ℚ))].length)
    ∧ ∀ i, i ∈ (potential_negatives [(0, 0)] [(3, 4)] 1 1).getD 0 [] ↔
        i < 1 ∧ i ∉ radiusNeighborsSq [(0, 0)] ([((3 : ℚ), (4 : ℚ))].getD 0 (0, 0)) 1 :=
  ⟨⟨rfl, by norm_num⟩, (claim_C4 [(0, 0)] [(3, 4)] 1 1 0 rfl (by norm_num)).1⟩

/-- `NearestNeighbors.fit(points)` (line 171): sklearn's `check_array` raises
`ValueError: Found array with 0 sample(s)` when fitted on an empty coordinate
array; otherwise the index holds the fitted points. -/
def knnFit (points : List Point) : Except String (List Point) :=
  if points.length = 0 then .error "Found array with 0 sample(s)"
  else .ok points

/-- Lines 170-192 of `QueryDatasetFromJson.__init__`: fit the spatial index on
the database coordinates (which raises on an empty array), then compute the
nontrivial-positive sets, the active-query list and the potential-negative
sets from the fitted index. -/
def initQueryDataset (utmDb utmQ : List Point) (numDb : ℕ)
    (posThrSq ntSqThr : ℚ) :
    Except String (List (List ℕ) × List ℕ × List (List ℕ)) :=
  match knnFit utmDb with
  | .error e => .error e
  | .ok fitted =>
    .ok (nontrivial_positives fitted utmQ ntSqThr,
         queries fitted utmQ ntSqThr,
         potential_negatives fitted utmQ numDb posThrSq)

/-- Claim C7, refuted on the code at the failing input `numDb = 0`
(`utmDb = []` by the manifest length invariant, one query): the claimed
post-construction state — every `potential_negatives[q]` empty and no active
query — is exactly what the candidate-set computations yield on the empty
index, but construction itself raises at `knn.fit` on the empty coordinate
array (line 171) and never completes, so that state is never reached. -/
theorem claim_C7_code_bug :
    initQueryDataset [] [((0 : ℚ), (0 : ℚ))] 0 1 1 =
      .error "Found array with 0 sample(s)"
    ∧ (∀ q, (potential_negatives [] [((0 : ℚ), (0 : ℚ))] 0 1).getD q [] = [])
    ∧ queries [] [((0 : ℚ), (0 : ℚ))] 1 = [] := by
  refine ⟨rfl, fun q => ?_, rfl⟩
  rcases q with _ | n <;> rfl

/-! ### Whole-Dataset Positive Resolver (`WholeDatasetFromJson.getPositives`,
lines 114-124)

The mutable fields of `WholeDatasetFromJson` relevant to `getPositives` are
modelled by `WholeDatasetState` (`self.positives`, initially `None`), plus a
`searchCount` instrumentation counter recording how many times the radius
search (`knn.fit` + `knn.radius_neighbors`) has been performed, as the spec's
call-count instrumentation on the Spatial Index. -/

/-- The cached-positives state of a `WholeDatasetFromJson` object. -/
structure WholeDatasetState where
  positives : Option (List (List ℕ))
  searchCount : ℕ

/-- `getPositives` (lines 114-124): if `self.positives is None`, run the
radius search at `posDistThr` (squared radius `posThrSq`) over all query
coordinates and cache it; return the cached value. -/
def getPositives (utmDb utmQ : List Point) (posThrSq : ℚ)
    (st : WholeDatasetState) : List (List ℕ) × WholeDatasetState :=
  match st.positives with
  | some p => (p, st)
  | none =>
    let p := utmQ.map (fun qc => radiusNeighborsSq utmDb qc posThrSq)
    (p, ⟨some p, st.searchCount + 1⟩)

/-- Claim C8: calling `getPositives` a second time returns the same result as
the first call, leaves the state (hence the radius-search count) unchanged,
and from an uncached state the first call performs the search exactly once. -/
theorem claim_C8 (utmDb utmQ : List Point) (posThrSq : ℚ)
    (st0 : WholeDatasetState) :
    (getPositives utmDb utmQ posThrSq (getPositives utmDb utmQ posThrSq st0).2).1 =
      (getPositives utmDb utmQ posThrSq st0).1
    ∧ (getPositives utmDb utmQ posThrSq (getPositives utmDb utmQ posThrSq st0).2).2 =
        (getPositives utmDb utmQ posThrSq st0).2
    ∧ (st0.positives = none →
        ((getPositives utmDb utmQ posThrSq st0).2).searchCount = st0.searchCount + 1) := by
  rcases st0 with ⟨_ | p, c⟩
  · exact ⟨rfl, rfl, fun _ => rfl⟩
  · exact ⟨rfl, rfl, fun h => by simp at h⟩

/-- Witness for C8 at a concrete input (cold state). -/
theorem claim_C8_witness :
    (WholeDatasetState.mk none 0).positives = none
    ∧ ((getPositives [] [] 0 ⟨none, 0⟩).2).searchCount = 0 + 1 :=
  ⟨rfl, (claim_C8 [] [] 0 ⟨none, 0⟩).2.2 rfl⟩

end Sthereo

namespace Sthereo

/-! ### Manifest Store (`JsonHandler`, lines 56-80)

JSON values occurring in a manifest are modelled by `JVal`: scalars, arrays of
image-identifier strings, and 2-D coordinate arrays; `nd` is a not-yet-encoded
`np.ndarray` of coordinates, which only `serialize`'s `NumpyArrayEncoder`
touches.  A JSON object / the `namedtuple` built from it is a key-value list
(keys in file order). -/

/-- A JSON value as it occurs in a dataset manifest. -/
inductive JVal where
  | num (q : ℚ)
  | str (s : String)
  | arrStr (l : List String)
  | arrPt (l : List Point)
  | nd (l : List Point)
  deriving DecidableEq

/-- `NumpyArrayEncoder.default` (lines 76-80): a `np.ndarray` is converted to
its nested-list form (`obj.tolist()`); everything else is passed through. -/
def numpyArrayEncode : JVal → JVal
  | .nd l => .arrPt l
  | v => v

/-- `JsonHandler.serialize` (lines 62-65): dump the mapping to JSON, encoding
numpy arrays as nested lists.  The result models the written JSON document's
key-value content. -/
def serialize (input : List (String × JVal)) : List (String × JVal) :=
  input.map (fun kv => (kv.1, numpyArrayEncode kv.2))

/-- `JsonHandler.deserialize` (lines 68-72): `json.load` the document and build
`namedtuple(name, data.keys())(*data.values())` — a record with exactly the
file's keys and values, with no validation of any kind. -/
def deserialize (data : List (String × JVal)) : List (String × JVal) :=
  data

/-- A value parsed from JSON text is always plain (never a numpy array). -/
def plainVal : JVal → Bool
  | .nd _ => false
  | _ => true

/-- The manifest fields the dataset classes access
(`whichSet`, `dataset`, `dbImage`, `utmDb`, `qImage`, `utmQ`, `numDb`, `numQ`,
`posDistThr`, `nonTrivPosDistSqThr`), i.e. the spec's required fields. -/
def requiredFields : List String :=
  ["whichSet", "dataset", "dbImage", "utmDb", "qImage", "utmQ",
   "numDb", "numQ", "posDistThr", "nonTrivPosDistSqThr"]

/-- Look up a key in a JSON object. -/
def lookupField (d : List (String × JVal)) (k : String) : Option JVal :=
  (d.find? (fun kv => kv.1 == k)).map Prod.snd

/-- Length of an array value, if the value is an array. -/
def lenOf : JVal → Option ℕ
  | .arrStr l => some l.length
  | .arrPt l => some l.length
  | .nd l => some l.length
  | _ => none

/-- A numeric value as a natural count, if it is one. -/
def natOf : JVal → Option ℕ
  | .num q => if q.den = 1 ∧ 0 ≤ q.num then some q.num.toNat else none
  | _ => none

/-- Modelled from the spec: the validation the spec's `load` performs —
"fails with `MalformedManifest` if required fields are absent or array lengths
mismatch `numDb`/`numQuery`" — which is absent from the source. -/
def specLoadOk (d : List (String × JVal)) : Bool :=
  requiredFields.all (fun k => (lookupField d k).isSome)
  && ((lookupField d "utmDb").bind lenOf == (lookupField d "numDb").bind natOf)
  && ((lookupField d "utmQ").bind lenOf == (lookupField d "numQ").bind natOf)

/-- Modelled from the spec: `load(path) -> Manifest`, failing with
`MalformedManifest` at load time on missing fields or length mismatches, and
otherwise producing the record the code's `deserialize` produces. -/
def specLoad (d : List (String × JVal)) : Except String (List (String × JVal)) :=
  if specLoadOk d then .ok (deserialize d) else .error "MalformedManifest"

/-- Counterexample to C9: on a manifest missing nearly every required field,
the code's `deserialize` succeeds and returns the partial record, while the
spec's loader rejects it with `MalformedManifest`; no load-time failure occurs
in the code. -/
theorem claim_C9_counterexample :
    deserialize [("whichSet", JVal.str "train")] = [("whichSet", JVal.str "train")]
    ∧ specLoad [("whichSet", JVal.str "train")] = .error "MalformedManifest" := by
  constructor
  · rfl
  · rfl

/-- Claim C9 as amended: the code performs no load-time validation —
`deserialize` always succeeds with the record of exactly the file's keys and
values (missing fields surface only on later attribute access) — and on every
manifest the spec's validating loader accepts, it returns the same record. -/
theorem claim_C9_amended (d r : List (String × JVal)) (h : specLoad d = .ok r) :
    deserialize d = r := by
  by_cases hok : specLoadOk d
  · rw [specLoad, if_pos hok] at h
    exact Except.ok.inj h
  · rw [specLoad, if_neg hok] at h
    exact absurd h (by simp)

/-- Witness for the amended C9 on a concrete well-formed manifest. -/
theorem claim_C9_amended_witness :
    specLoad [("whichSet", JVal.str "train"), ("dataset", JVal.str "sthereo"),
        ("dbImage", JVal.arrStr ["s:1"]), ("utmDb", JVal.arrPt [(0, 0)]),
        ("qImage", JVal.arrStr ["s:2"]), ("utmQ", JVal.arrPt [(1, 1)]),
        ("numDb", JVal.num 1), ("numQ", JVal.num 1),
        ("posDistThr", JVal.num 10), ("nonTrivPosDistSqThr", JVal.num 25)] =
      .ok [("whichSet", JVal.str "train"), ("dataset", JVal.str "sthereo"),
        ("dbImage", JVal.arrStr ["s:1"]), ("utmDb", JVal.arrPt [(0, 0)]),
        ("qImage", JVal.arrStr ["s:2"]), ("utmQ", JVal.arrPt [(1, 1)]),
        ("numDb", JVal.num 1), ("numQ", JVal.num 1),
        ("posDistThr", JVal.num 10), ("nonTrivPosDistSqThr", JVal.num 25)]
    ∧ deserialize [("whichSet", JVal.str "train"), ("dataset", JVal.str "sthereo"),
        ("dbImage", JVal.arrStr ["s:1"]), ("utmDb", JVal.arrPt [(0, 0)]),
        ("qImage", JVal.arrStr ["s:2"]), ("utmQ", JVal.arrPt [(1, 1)]),
        ("numDb", JVal.num 1), ("numQ", JVal.num 1),
        ("posDistThr", JVal.num 10), ("nonTrivPosDistSqThr", JVal.num 25)] =
      [("whichSet", JVal.str "train"), ("dataset", JVal.str "sthereo"),
        ("dbImage", JVal.arrStr ["s:1"]), ("utmDb", JVal.arrPt [(0, 0)]),
        ("qImage", JVal.arrStr ["s:2"]), ("utmQ", JVal.arrPt [(1, 1)]),
        ("numDb", JVal.num 1), ("numQ", JVal.num 1),
        ("posDistThr", JVal.num 10), ("nonTrivPosDistSqThr", JVal.num 25)] :=
  ⟨by rfl, claim_C9_amended _ _ (by rfl)⟩

/-- Claim C10: saving the result of loading a manifest reproduces the original
document exactly — every value parsed from JSON is plain (no numpy array), and
on plain values the numpy-array conversion is the identity, so
`serialize (deserialize d) = d`, key by key and bit by bit. -/
theorem claim_C10 (d : List (String × JVal)) (h : ∀ kv ∈ d, plainVal kv.2 = true) :
    serialize (deserialize d) = d := by
  have key : ∀ l : List (String × JVal), (∀ kv ∈ l, plainVal kv.2 = true) →
      l.map (fun kv => (kv.1, numpyArrayEncode kv.2)) = l := by
    intro l
    induction l with
    | nil => intro _; rfl
    | cons kv tl ih =>
      intro hl
      have hkv : plainVal kv.2 = true := hl kv (List.mem_cons_self kv tl)
      have henc : numpyArrayEncode kv.2 = kv.2 := by
        rcases hv : kv.2 with q | s | ls | lp | ln <;> simp [numpyArrayEncode]
        rw [hv] at hkv
        simp [plainVal] at hkv
      simp only [List.map_cons, henc, Prod.mk.eta,
        ih (fun x hx => hl x (List.mem_cons_of_mem _ hx))]
  rw [deserialize, serialize]
  exact key d h

/-- Witness for C10 on a concrete loaded manifest. -/
theorem claim_C10_witness :
    (∀ kv ∈ [("utmDb", JVal.arrPt [(0, 0), (3, 4)]), ("posDistThr", JVal.num 10)],
      plainVal kv.2 = true)
    ∧ serialize (deserialize
        [("utmDb", JVal.arrPt [(0, 0), (3, 4)]), ("posDistThr", JVal.num 10)]) =
      [("utmDb", JVal.arrPt [(0, 0), (3, 4)]), ("posDistThr", JVal.num 10)] :=
  ⟨by decide, claim_C10 _ (by decide)⟩

end Sthereo

